import Mathlib

/-!
Shallow embedding of the BirianyDibe server (`src/server.ts`).

The server is a four-endpoint HTTP API over a SQLite store
(tables `users`, `posts`, `votes`, `reports`), with a process-local
in-memory fallback list of posts (`memoryPosts`, pre-seeded with two
sample posts) and a socket.io broadcast channel (`ioInstance`, absent
in production).

Modelling choices:
- SQLite tables become Lean lists of rows; `AUTOINCREMENT` ids become
  explicit counters in the state.
- `created_at` timestamps (SQLite `CURRENT_TIMESTAMP` / JS `new Date()`)
  become a single logical clock `now : Nat` that advances on each
  creation; the two sample posts share the module-load instant `0`.
- JS `lat`/`lng` numbers become `Rat` (their values are only stored and
  echoed, never computed with).
- A request-scoped flag `dbFail : Bool` models a store statement
  throwing (I/O error); the `catch` branches of the handlers are
  translated under `dbFail = true`.  In `createPost`, a SQLite
  `PRIMARY KEY` violation on a duplicate post id also throws, after the
  `INSERT OR IGNORE` of the user succeeded; this deterministic failure
  is modelled separately from `dbFail`.
- `if (ioInstance) ioInstance.emit(...)` becomes appending to an event
  log when `hasIO = true` (in production `ioInstance` is `null`).
- The string load-time `new Date().toISOString()` used by the two
  pre-seeded sample posts is a parameter `t` of the initial state.
-/

/-- Row of the `users` table (`id TEXT PRIMARY KEY, name, email, avatar`);
the only insert is `INSERT OR IGNORE INTO users (id, name) VALUES (?, 'Anonymous User')`,
leaving `email` and `avatar` NULL. -/
structure UserRow where
  id : String
  name : String
  email : Option String
  avatar : Option String
deriving DecidableEq, Repr

/-- Row of the `posts` table. -/
structure PostRow where
  id : String
  user_id : String
  place_name : String
  description : String
  lat : Rat
  lng : Rat
  distribution_time : String
  created_at : Nat
deriving DecidableEq, Repr

/-- Row of the `votes` table (`UNIQUE(post_id, user_id)`). -/
structure VoteRow where
  id : Nat
  post_id : String
  user_id : String
  vote_type : Int
deriving DecidableEq, Repr

/-- Row of the `reports` table. -/
structure ReportRow where
  id : Nat
  post_id : String
  user_id : String
  reason : String
deriving DecidableEq, Repr

/-- Element of the in-memory fallback list `memoryPosts`: a plain JS
object carrying stored `true_votes` / `false_votes` fields. -/
structure MemPost where
  id : String
  user_id : String
  user_name : String
  place_name : String
  description : String
  lat : Rat
  lng : Rat
  distribution_time : String
  true_votes : Nat
  false_votes : Nat
  created_at : Nat
deriving DecidableEq, Repr

/-- A post record as serialized to clients: `p.*` joined with
`u.name as user_name` (NULL when the LEFT JOIN finds no user) and a
tally pair. -/
structure PostView where
  id : String
  user_id : String
  user_name : Option String
  place_name : String
  description : String
  lat : Rat
  lng : Rat
  distribution_time : String
  true_votes : Nat
  false_votes : Nat
  created_at : Nat
deriving DecidableEq, Repr

/-- Events emitted on the socket.io channel. -/
inductive Event where
  | postCreated (p : PostView)
  | postVoted (post_id : String) (true_votes false_votes : Nat)
deriving DecidableEq, Repr

/-- The whole server state: the four tables, the autoincrement
counters, the fallback list, the emitted-events log, whether a
broadcast channel exists, and the logical clock. -/
structure ServerState where
  users : List UserRow
  posts : List PostRow
  votes : List VoteRow
  reports : List ReportRow
  nextVoteId : Nat
  nextReportId : Nat
  memoryPosts : List MemPost
  events : List Event
  hasIO : Bool
  now : Nat
deriving DecidableEq, Repr

/-- First pre-seeded sample post of `memoryPosts` in `src/server.ts`;
`t` is the load-time ISO string. -/
def sample1 (t : String) : MemPost :=
  { id := "sample-1", user_id := "system", user_name := "এডমিন",
    place_name := "ঢাকা বিশ্ববিদ্যালয় এলাকা",
    description := "এখানে নিয়মিত রাতে বিরিয়ানি বিতরণ করা হয়।",
    lat := 23.733, lng := 90.393, distribution_time := t,
    true_votes := 15, false_votes := 1, created_at := 0 }

/-- Second pre-seeded sample post of `memoryPosts` in `src/server.ts`. -/
def sample2 (t : String) : MemPost :=
  { id := "sample-2", user_id := "system", user_name := "এডমিন",
    place_name := "মিরপুর ১০ গোলচত্বর",
    description := "শুক্রবার জুমার পর এখানে খিচুড়ি পাওয়া যায়।",
    lat := 23.807, lng := 90.368, distribution_time := t,
    true_votes := 8, false_votes := 0, created_at := 0 }

/-- Server state at module load: empty tables, `memoryPosts` seeded
with the two samples, no events; `io` reflects whether socket.io was
initialized (non-production). -/
def initialState (t : String) (io : Bool) : ServerState :=
  { users := [], posts := [], votes := [], reports := [],
    nextVoteId := 1, nextReportId := 1,
    memoryPosts := [sample1 t, sample2 t],
    events := [], hasIO := io, now := 1 }

/-- `(SELECT COUNT(*) FROM votes v WHERE v.post_id = ? AND v.vote_type = 1)`. -/
def trueVotes (pid : String) (vs : List VoteRow) : Nat :=
  vs.countP (fun v => v.post_id == pid && v.vote_type == 1)

/-- `(SELECT COUNT(*) FROM votes v WHERE v.post_id = ? AND v.vote_type = 0)`. -/
def falseVotes (pid : String) (vs : List VoteRow) : Nat :=
  vs.countP (fun v => v.post_id == pid && v.vote_type == 0)

/-- `SELECT COUNT(*) FROM votes WHERE post_id = ?` (all vote rows of a post,
whatever their `vote_type`). -/
def postVotes (pid : String) (vs : List VoteRow) : Nat :=
  vs.countP (fun v => v.post_id == pid)

/-- The row selected by `LEFT JOIN users u ON p.user_id = u.id` plus the
two correlated COUNT subqueries of the `GET /api/posts` query. -/
def postViewOf (users : List UserRow) (votes : List VoteRow) (p : PostRow) : PostView :=
  { id := p.id, user_id := p.user_id,
    user_name := (users.find? (fun u => u.id == p.user_id)).map (fun u => u.name),
    place_name := p.place_name, description := p.description,
    lat := p.lat, lng := p.lng, distribution_time := p.distribution_time,
    true_votes := trueVotes p.id votes, false_votes := falseVotes p.id votes,
    created_at := p.created_at }

/-- Serialization of a fallback-list entry (its stored fields, tallies
included, are echoed as they are). -/
def memPostView (m : MemPost) : PostView :=
  { id := m.id, user_id := m.user_id, user_name := some m.user_name,
    place_name := m.place_name, description := m.description,
    lat := m.lat, lng := m.lng, distribution_time := m.distribution_time,
    true_votes := m.true_votes, false_votes := m.false_votes,
    created_at := m.created_at }

/-- `ORDER BY p.created_at DESC` as a relation on post rows. -/
def byCreatedDesc (a b : PostRow) : Prop := b.created_at ≤ a.created_at

instance : DecidableRel byCreatedDesc := fun a b =>
  inferInstanceAs (Decidable (b.created_at ≤ a.created_at))

instance : IsTotal PostRow byCreatedDesc :=
  ⟨fun a b => le_total b.created_at a.created_at⟩

instance : IsTrans PostRow byCreatedDesc :=
  ⟨fun _ _ _ h1 h2 => le_trans h2 h1⟩

/-- `GET /api/posts`: on a successful store read, the joined and sorted
store posts followed by `memoryPosts` (`res.json([...posts, ...memoryPosts])`);
on a store error, `memoryPosts` alone (the `catch` branch). -/
def listPosts (s : ServerState) (dbFail : Bool) : List PostView :=
  if dbFail then s.memoryPosts.map memPostView
  else (s.posts.insertionSort byCreatedDesc).map (postViewOf s.users s.votes)
        ++ s.memoryPosts.map memPostView

/-- Parsed JSON body of `POST /api/posts`.  Only `place_name` is ever
tested for presence (`if (!place_name)`), so only it is an `Option`;
`none` models an absent/null field, and `some ""` the other JS-falsy
string. -/
structure CreatePostReq where
  id : String
  user_id : String
  place_name : Option String
  description : String
  lat : Rat
  lng : Rat
  distribution_time : String
deriving DecidableEq, Repr

/-- JS falsiness of the `place_name` body field (`!place_name`). -/
def falsyStr : Option String → Bool
  | none => true
  | some s => s == ""

/-- Result of `POST /api/posts`: 201 with the created record, or 400. -/
inductive CreateResult where
  | created (p : PostView)
  | badRequest (error : String)
deriving DecidableEq, Repr

/-- Result of `POST /api/votes` (`res.json`, always HTTP 200). -/
inductive VoteResult where
  | ok (post_id : String) (true_votes false_votes : Nat)
deriving DecidableEq, Repr

/-- Result of `POST /api/reports`: 201 `{success: true}` or 500. -/
inductive ReportResult where
  | ok
  | serverError (error : String)
deriving DecidableEq, Repr

/-- `INSERT OR IGNORE INTO users (id, name) VALUES (?, 'Anonymous User')`. -/
def insertOrIgnoreUser (users : List UserRow) (uid : String) : List UserRow :=
  if users.any (fun u => u.id == uid) then users
  else users ++ [{ id := uid, name := "Anonymous User", email := none, avatar := none }]

/-- `POST /api/posts`.  Missing `place_name` returns 400 before any
write.  Otherwise the store path inserts the user (idempotent) and the
post, re-reads it with `0 as true_votes, 0 as false_votes`, emits
`post:created` and returns 201.  If a store statement throws
(`dbFail`, before anything persists) or the post id already exists
(`PRIMARY KEY` violation, after the user insert), the handler falls
back to unshifting a memory post, emitting and returning it. -/
def createPost (s : ServerState) (r : CreatePostReq) (dbFail : Bool) :
    CreateResult × ServerState :=
  if falsyStr r.place_name then (.badRequest "Place name is required", s)
  else
    let pname := r.place_name.getD ""
    let users1 := if dbFail then s.users else insertOrIgnoreUser s.users r.user_id
    if dbFail || s.posts.any (fun p => p.id == r.id) then
      let m : MemPost :=
        { id := r.id, user_id := r.user_id, user_name := "Anonymous User",
          place_name := pname, description := r.description,
          lat := r.lat, lng := r.lng, distribution_time := r.distribution_time,
          true_votes := 0, false_votes := 0, created_at := s.now }
      (.created (memPostView m),
       { s with users := users1,
                memoryPosts := m :: s.memoryPosts,
                events := s.events ++
                  (if s.hasIO then [Event.postCreated (memPostView m)] else []),
                now := s.now + 1 })
    else
      let row : PostRow :=
        { id := r.id, user_id := r.user_id, place_name := pname,
          description := r.description, lat := r.lat, lng := r.lng,
          distribution_time := r.distribution_time, created_at := s.now }
      let np : PostView :=
        { id := row.id, user_id := row.user_id,
          user_name := (users1.find? (fun u => u.id == row.user_id)).map (fun u => u.name),
          place_name := row.place_name, description := row.description,
          lat := row.lat, lng := row.lng,
          distribution_time := row.distribution_time,
          true_votes := 0, false_votes := 0, created_at := row.created_at }
      (.created np,
       { s with users := users1,
                posts := s.posts ++ [row],
                events := s.events ++
                  (if s.hasIO then [Event.postCreated np] else []),
                now := s.now + 1 })

/-- Does a vote row belong to the `(post, user)` pair? -/
def voteKey (pid uid : String) (v : VoteRow) : Bool :=
  v.post_id == pid && v.user_id == uid

/-- The `DO UPDATE SET vote_type = excluded.vote_type` action on one row. -/
def updVote (pid uid : String) (vt : Int) (v : VoteRow) : VoteRow :=
  if voteKey pid uid v then { v with vote_type := vt } else v

/-- `INSERT INTO votes ... ON CONFLICT(post_id, user_id) DO UPDATE SET
vote_type = excluded.vote_type`: update the existing row of the pair,
or append a fresh one. -/
def upsertVote (vs : List VoteRow) (nextId : Nat) (pid uid : String) (vt : Int) :
    List VoteRow × Nat :=
  if vs.any (voteKey pid uid) then
    (vs.map (updVote pid uid vt), nextId)
  else
    (vs ++ [{ id := nextId, post_id := pid, user_id := uid, vote_type := vt }],
     nextId + 1)

/-- `POST /api/votes`: upsert the vote, recount both tallies, emit
`post:voted`, answer the tally pair; on a store error answer
`{post_id, true_votes: 0, false_votes: 0}` with nothing persisted and
nothing emitted. -/
def castVote (s : ServerState) (pid uid : String) (vt : Int) (dbFail : Bool) :
    VoteResult × ServerState :=
  if dbFail then (.ok pid 0 0, s)
  else
    let up := upsertVote s.votes s.nextVoteId pid uid vt
    let tv := trueVotes pid up.1
    let fv := falseVotes pid up.1
    (.ok pid tv fv,
     { s with votes := up.1, nextVoteId := up.2,
              events := s.events ++
                (if s.hasIO then [Event.postVoted pid tv fv] else []) })

/-- `POST /api/reports`: insert the report row and answer
`{success: true}`; on a store error answer 500 `{error: 'Failed to report'}`. -/
def createReport (s : ServerState) (pid uid reason : String) (dbFail : Bool) :
    ReportResult × ServerState :=
  if dbFail then (.serverError "Failed to report", s)
  else
    (.ok,
     { s with reports := s.reports ++
                [{ id := s.nextReportId, post_id := pid, user_id := uid, reason := reason }],
              nextReportId := s.nextReportId + 1 })

/-- One client request (`GET /api/posts` reads but does not change the
state, so only the three write endpoints appear). -/
inductive Step : ServerState → ServerState → Prop where
  | create (s : ServerState) (r : CreatePostReq) (f : Bool) :
      Step s (createPost s r f).2
  | vote (s : ServerState) (pid uid : String) (vt : Int) (f : Bool) :
      Step s (castVote s pid uid vt f).2
  | report (s : ServerState) (pid uid reason : String) (f : Bool) :
      Step s (createReport s pid uid reason f).2

/-- States the server can be in after any sequence of requests, from a
module load at instant `t` with or without a broadcast channel. -/
def Reachable (t : String) (io : Bool) (s : ServerState) : Prop :=
  Relation.ReflTransGen Step (initialState t io) s

/-- No two vote rows share a `(post_id, user_id)` key — the
`UNIQUE(post_id, user_id)` constraint of the `votes` table. -/
def distinctVoteKeys (vs : List VoteRow) : Prop :=
  vs.Pairwise (fun a b => ¬(a.post_id = b.post_id ∧ a.user_id = b.user_id))

/-- Every post row references an existing user row. -/
def refIntegrity (s : ServerState) : Bool :=
  s.posts.all (fun p => s.users.any (fun u => u.id == p.user_id))

/-- Invariant holding in every reachable server state. -/
structure WF (t : String) (s : ServerState) : Prop where
  memSorted : s.memoryPosts.Pairwise (fun a b => b.created_at ≤ a.created_at)
  memLtNow : ∀ m ∈ s.memoryPosts, m.created_at < s.now
  postsLtNow : ∀ p ∈ s.posts, p.created_at < s.now
  votesDistinct : distinctVoteKeys s.votes
  refs : refIntegrity s = true
  memSuffix : ∃ l, s.memoryPosts = l ++ [sample1 t, sample2 t]

theorem any_insertOrIgnoreUser {users : List UserRow} {p : UserRow → Bool}
    (uid : String) (h : users.any p = true) :
    (insertOrIgnoreUser users uid).any p = true := by
  unfold insertOrIgnoreUser
  split
  · exact h
  · simp [List.any_append, h]

theorem self_mem_insertOrIgnoreUser (users : List UserRow) (uid : String) :
    (insertOrIgnoreUser users uid).any (fun u => u.id == uid) = true := by
  unfold insertOrIgnoreUser
  split
  · assumption
  · simp [List.any_append]

theorem refs_users_grow {posts : List PostRow} {users : List UserRow} (uid : String)
    (h : posts.all (fun p => users.any (fun u => u.id == p.user_id)) = true) :
    posts.all (fun p => (insertOrIgnoreUser users uid).any (fun u => u.id == p.user_id)) = true := by
  rw [List.all_eq_true] at h ⊢
  exact fun p hp => any_insertOrIgnoreUser uid (h p hp)

theorem upd_vote_post_id (pid uid : String) (vt : Int) (v : VoteRow) :
    (updVote pid uid vt v).post_id = v.post_id := by
  unfold updVote
  split <;> rfl

theorem upd_vote_user_id (pid uid : String) (vt : Int) (v : VoteRow) :
    (updVote pid uid vt v).user_id = v.user_id := by
  unfold updVote
  split <;> rfl

theorem distinct_upsert (vs : List VoteRow) (nextId : Nat) (pid uid : String) (vt : Int)
    (h : distinctVoteKeys vs) :
    distinctVoteKeys (upsertVote vs nextId pid uid vt).1 := by
  unfold upsertVote distinctVoteKeys at *
  split
  · dsimp only
    rw [List.pairwise_map]
    refine h.imp ?_
    intro a b hab
    simpa [upd_vote_post_id, upd_vote_user_id] using hab
  · rename_i hex
    dsimp only
    rw [List.pairwise_append]
    refine ⟨h, by simp, ?_⟩
    intro a ha b hb
    simp only [List.mem_singleton] at hb
    subst hb
    rintro ⟨h1, h2⟩
    exact hex (List.any_eq_true.mpr ⟨a, ha, by simp [voteKey, h1, h2]⟩)

theorem exists_suffix_cons {α : Type} (x : α) {l l0 t2 : List α} (h : l = l0 ++ t2) :
    ∃ l2, x :: l = l2 ++ t2 :=
  ⟨x :: l0, by rw [h, List.cons_append]⟩

theorem WF_createPost (t : String) (s : ServerState) (r : CreatePostReq) (f : Bool)
    (h : WF t s) : WF t (createPost s r f).2 := by
  obtain ⟨hms, hmn, hpn, hvd, hri, l0, hsuf⟩ := h
  unfold createPost
  split
  · exact ⟨hms, hmn, hpn, hvd, hri, l0, hsuf⟩
  · dsimp only
    split
    · -- memory-fallback path
      refine ⟨?_, ?_, ?_, hvd, ?_, ?_⟩
      · exact List.pairwise_cons.mpr ⟨fun b hb => le_of_lt (hmn b hb), hms⟩
      · intro m hm
        rcases List.mem_cons.mp hm with hm | hm
        · subst hm; exact Nat.lt_succ_self _
        · exact Nat.lt_trans (hmn m hm) (Nat.lt_succ_self _)
      · exact fun p hp => Nat.lt_trans (hpn p hp) (Nat.lt_succ_self _)
      · unfold refIntegrity at hri ⊢
        split
        · exact hri
        · exact refs_users_grow r.user_id hri
      · exact exists_suffix_cons _ hsuf
    · -- store path
      rename_i hcond
      have hnf : f = false := by
        cases f
        · rfl
        · simp at hcond
      refine ⟨hms, ?_, ?_, hvd, ?_, ⟨l0, hsuf⟩⟩
      · exact fun m hm => Nat.lt_trans (hmn m hm) (Nat.lt_succ_self _)
      · intro p hp
        rcases List.mem_append.mp hp with hp | hp
        · exact Nat.lt_trans (hpn p hp) (Nat.lt_succ_self _)
        · simp only [List.mem_singleton] at hp
          subst hp
          exact Nat.lt_succ_self _
      · unfold refIntegrity at hri ⊢
        simp only [hnf, Bool.false_eq_true, if_false, List.all_append, Bool.and_eq_true]
        exact ⟨refs_users_grow r.user_id hri, by simp [self_mem_insertOrIgnoreUser]⟩

theorem WF_castVote (t : String) (s : ServerState) (pid uid : String) (vt : Int) (f : Bool)
    (h : WF t s) : WF t (castVote s pid uid vt f).2 := by
  obtain ⟨hms, hmn, hpn, hvd, hri, l0, hsuf⟩ := h
  unfold castVote
  split
  · exact ⟨hms, hmn, hpn, hvd, hri, l0, hsuf⟩
  · exact ⟨hms, hmn, hpn, distinct_upsert _ _ _ _ _ hvd,
           by simpa [refIntegrity] using hri, ⟨l0, hsuf⟩⟩

theorem WF_createReport (t : String) (s : ServerState) (pid uid reason : String) (f : Bool)
    (h : WF t s) : WF t (createReport s pid uid reason f).2 := by
  obtain ⟨hms, hmn, hpn, hvd, hri, l0, hsuf⟩ := h
  unfold createReport
  split
  · exact ⟨hms, hmn, hpn, hvd, hri, l0, hsuf⟩
  · exact ⟨hms, hmn, hpn, hvd, by simpa [refIntegrity] using hri, ⟨l0, hsuf⟩⟩

theorem WF_initial (t : String) (io : Bool) : WF t (initialState t io) := by
  refine ⟨?_, ?_, ?_, ?_, ?_, ⟨[], rfl⟩⟩ <;>
    simp [initialState, sample1, sample2, distinctVoteKeys, refIntegrity]

theorem WF_step {t : String} {s s2 : ServerState} (h : WF t s) (hs : Step s s2) :
    WF t s2 := by
  cases hs with
  | create r f => exact WF_createPost t s r f h
  | vote pid uid vt f => exact WF_castVote t s pid uid vt f h
  | report pid uid reason f => exact WF_createReport t s pid uid reason f h

theorem WF_reachable {t : String} {io : Bool} {s : ServerState}
    (h : Reachable t io s) : WF t s := by
  induction h with
  | refl => exact WF_initial t io
  | tail _ hstep ih => exact WF_step ih hstep

theorem voteKey_updVote (pid uid : String) (vt : Int) (v : VoteRow) :
    voteKey pid uid (updVote pid uid vt v) = voteKey pid uid v := by
  unfold updVote
  split <;> rfl

theorem castVote_insert (s : ServerState) (pid uid : String) (vt : Int)
    (hany : s.votes.any (voteKey pid uid) = false) :
    castVote s pid uid vt false =
      (VoteResult.ok pid
        (trueVotes pid (s.votes ++ [⟨s.nextVoteId, pid, uid, vt⟩]))
        (falseVotes pid (s.votes ++ [⟨s.nextVoteId, pid, uid, vt⟩])),
       { s with votes := s.votes ++ [⟨s.nextVoteId, pid, uid, vt⟩],
                nextVoteId := s.nextVoteId + 1,
                events := s.events ++
                  (if s.hasIO then
                    [Event.postVoted pid
                      (trueVotes pid (s.votes ++ [⟨s.nextVoteId, pid, uid, vt⟩]))
                      (falseVotes pid (s.votes ++ [⟨s.nextVoteId, pid, uid, vt⟩]))]
                  else []) }) := by
  unfold castVote upsertVote
  rw [hany]
  rfl

theorem castVote_update (s : ServerState) (pid uid : String) (vt : Int)
    (hany : s.votes.any (voteKey pid uid) = true) :
    castVote s pid uid vt false =
      (VoteResult.ok pid
        (trueVotes pid (s.votes.map (updVote pid uid vt)))
        (falseVotes pid (s.votes.map (updVote pid uid vt))),
       { s with votes := s.votes.map (updVote pid uid vt),
                events := s.events ++
                  (if s.hasIO then
                    [Event.postVoted pid
                      (trueVotes pid (s.votes.map (updVote pid uid vt)))
                      (falseVotes pid (s.votes.map (updVote pid uid vt)))]
                  else []) }) := by
  unfold castVote upsertVote
  rw [hany]
  rfl

theorem counts_zero_of_not_post {pid : String} (uid : String) {l : List VoteRow}
    (h : ∀ v ∈ l, v.post_id ≠ pid) :
    trueVotes pid l = 0 ∧ falseVotes pid l = 0 ∧ l.countP (voteKey pid uid) = 0 := by
  unfold trueVotes falseVotes
  refine ⟨?_, ?_, ?_⟩ <;>
    · rw [List.countP_eq_zero]
      intro v hv
      simp [voteKey, h v hv]

theorem map_upd_not_post {pid uid : String} {vt : Int} {l : List VoteRow}
    (h : ∀ v ∈ l, v.post_id ≠ pid) :
    ∀ w ∈ l.map (updVote pid uid vt), w.post_id ≠ pid := by
  intro w hw
  rcases List.mem_map.mp hw with ⟨v, hv, rfl⟩
  rw [upd_vote_post_id]
  exact h v hv

theorem countP_key_map (pid uid : String) (vt : Int) (l : List VoteRow) :
    (l.map (updVote pid uid vt)).countP (voteKey pid uid) = l.countP (voteKey pid uid) := by
  induction l with
  | nil => rfl
  | cons v l ih => simp [List.countP_cons, ih, voteKey_updVote]

theorem countP_key_eq_one {pid uid : String} {l : List VoteRow}
    (hd : distinctVoteKeys l) (hex : l.any (voteKey pid uid) = true) :
    l.countP (voteKey pid uid) = 1 := by
  induction l with
  | nil => simp at hex
  | cons v l ih =>
    rw [distinctVoteKeys, List.pairwise_cons] at hd
    by_cases hv : voteKey pid uid v = true
    · have hz : l.countP (voteKey pid uid) = 0 := by
        rw [List.countP_eq_zero]
        intro w hw hwk
        have hv2 := hv
        have hwk2 := hwk
        simp only [voteKey, Bool.and_eq_true, beq_iff_eq] at hv2 hwk2
        exact hd.1 w hw ⟨hv2.1.trans hwk2.1.symm, hv2.2.trans hwk2.2.symm⟩
      simp [List.countP_cons, hv, hz]
    · have hex2 : l.any (voteKey pid uid) = true := by
        simp only [List.any_cons, Bool.or_eq_true] at hex
        rcases hex with hh | hh
        · exact absurd hh hv
        · exact hh
      simp [List.countP_cons, hv, ih hd.2 hex2]

theorem find?_append_right {α : Type} {p : α → Bool} {l1 : List α} (l2 : List α)
    (h : l1.any p = false) : (l1 ++ l2).find? p = l2.find? p := by
  induction l1 with
  | nil => rfl
  | cons x l ih =>
    cases hx : p x with
    | false =>
      rw [List.cons_append, List.find?_cons_of_neg _ (by simp [hx])]
      apply ih
      simpa [List.any_cons, hx] using h
    | true =>
      rw [List.any_cons, hx] at h
      simp at h

theorem find?_map_upd {pid uid : String} {vt : Int} {l : List VoteRow}
    (hex : l.any (voteKey pid uid) = true) :
    ((l.map (updVote pid uid vt)).find? (voteKey pid uid)).map VoteRow.vote_type
      = some vt := by
  induction l with
  | nil => simp at hex
  | cons v l ih =>
    rw [List.map_cons]
    cases hv : voteKey pid uid v with
    | false =>
      rw [List.find?_cons_of_neg _ (by simp [voteKey_updVote, hv])]
      apply ih
      simpa [List.any_cons, hv] using hex
    | true =>
      rw [List.find?_cons_of_pos _ (by simp [voteKey_updVote, hv])]
      simp [updVote, hv]

theorem tallies_le (pid : String) (l : List VoteRow) :
    trueVotes pid l + falseVotes pid l ≤ postVotes pid l := by
  induction l with
  | nil => simp [trueVotes, falseVotes, postVotes]
  | cons v l ih =>
    simp only [trueVotes, falseVotes, postVotes, List.countP_cons] at ih ⊢
    by_cases h1 : (v.post_id == pid) = true
    · by_cases h2 : (v.vote_type == 1) = true
      · have h3 : (v.vote_type == 0) = false := by
          rw [beq_iff_eq] at h2
          rw [beq_eq_false_iff_ne, h2]
          decide
        simp [h1, h2, h3]
        omega
      · rw [Bool.not_eq_true] at h2
        by_cases h3 : (v.vote_type == 0) = true
        · simp [h1, h2, h3]
          omega
        · rw [Bool.not_eq_true] at h3
          simp [h1, h2, h3]
          omega
    · rw [Bool.not_eq_true] at h1
      simp [h1]
      omega

theorem tallies_lt_of_mem {pid : String} {l : List VoteRow} {w : VoteRow}
    (hw : w ∈ l) (hp : w.post_id = pid) (h0 : w.vote_type ≠ 0) (h1 : w.vote_type ≠ 1) :
    trueVotes pid l + falseVotes pid l < postVotes pid l := by
  induction l with
  | nil => cases hw
  | cons v l ih =>
    simp only [trueVotes, falseVotes, postVotes, List.countP_cons] at ih ⊢
    rcases List.mem_cons.mp hw with rfl | hw2
    · have e1 : (w.post_id == pid) = true := by rw [beq_iff_eq]; exact hp
      have e2 : (w.vote_type == 1) = false := by rw [beq_eq_false_iff_ne]; exact h1
      have e3 : (w.vote_type == 0) = false := by rw [beq_eq_false_iff_ne]; exact h0
      simp [e1, e2, e3]
      have hle := tallies_le pid l
      simp only [trueVotes, falseVotes, postVotes] at hle
      omega
    · have hrec := ih hw2
      by_cases c1 : (v.post_id == pid) = true
      · by_cases c2 : (v.vote_type == 1) = true
        · have c3 : (v.vote_type == 0) = false := by
            rw [beq_iff_eq] at c2
            rw [beq_eq_false_iff_ne, c2]
            decide
          simp [c1, c2, c3]
          omega
        · rw [Bool.not_eq_true] at c2
          by_cases c3 : (v.vote_type == 0) = true
          · simp [c1, c2, c3]
            omega
          · rw [Bool.not_eq_true] at c3
            simp [c1, c2, c3]
            omega
      · rw [Bool.not_eq_true] at c1
        simp [c1]
        omega

/-- C1: from a state with no votes on a post, the same user voting
`vote_type = 1` and then re-voting `vote_type = 0` yields tallies
`{true_votes: 1, false_votes: 0}` then `{true_votes: 0, false_votes: 1}`:
the second vote overwrites instead of accumulating, and afterwards the
`(post, user)` pair owns exactly one vote row. -/
theorem castVote_revote_overwrites (s : ServerState) (pid uid : String)
    (hp : s.votes.all (fun v => v.post_id != pid) = true) :
    (castVote s pid uid 1 false).1 = VoteResult.ok pid 1 0 ∧
    (castVote (castVote s pid uid 1 false).2 pid uid 0 false).1
      = VoteResult.ok pid 0 1 ∧
    (castVote (castVote s pid uid 1 false).2 pid uid 0 false).2.votes.countP
      (voteKey pid uid) = 1 := by
  have hp2 : ∀ v ∈ s.votes, v.post_id ≠ pid := by
    intro v hv
    simpa [bne_iff_ne] using List.all_eq_true.mp hp v hv
  have hany : s.votes.any (voteKey pid uid) = false := by
    rw [List.any_eq_false]
    intro v hv
    simp [voteKey, hp2 v hv]
  obtain ⟨ht0, hf0, hk0⟩ := counts_zero_of_not_post uid hp2
  have e1 := castVote_insert s pid uid 1 hany
  have htv1 : trueVotes pid (s.votes ++ [⟨s.nextVoteId, pid, uid, 1⟩]) = 1 := by
    unfold trueVotes at ht0 ⊢
    rw [List.countP_append, ht0]
    simp
  have hfv1 : falseVotes pid (s.votes ++ [⟨s.nextVoteId, pid, uid, 1⟩]) = 0 := by
    unfold falseVotes at hf0 ⊢
    rw [List.countP_append, hf0]
    simp
  have hv1 : (castVote s pid uid 1 false).2.votes
      = s.votes ++ [⟨s.nextVoteId, pid, uid, 1⟩] := by
    rw [e1]
  have hany2 : (castVote s pid uid 1 false).2.votes.any (voteKey pid uid) = true := by
    rw [hv1]
    simp [List.any_append, voteKey]
  have e2 := castVote_update (castVote s pid uid 1 false).2 pid uid 0 hany2
  have hupd1 : updVote pid uid 0 ⟨s.nextVoteId, pid, uid, 1⟩
      = (⟨s.nextVoteId, pid, uid, 0⟩ : VoteRow) := by
    simp [updVote, voteKey]
  have hmap0 : ∀ w ∈ s.votes.map (updVote pid uid 0), w.post_id ≠ pid :=
    map_upd_not_post hp2
  obtain ⟨ht0m, hf0m, hk0m⟩ := counts_zero_of_not_post uid hmap0
  have hvotes2 : (castVote s pid uid 1 false).2.votes.map (updVote pid uid 0)
      = s.votes.map (updVote pid uid 0) ++ [⟨s.nextVoteId, pid, uid, 0⟩] := by
    rw [hv1, List.map_append, List.map_singleton, hupd1]
  have htv2 : trueVotes pid ((castVote s pid uid 1 false).2.votes.map (updVote pid uid 0))
      = 0 := by
    rw [hvotes2]
    unfold trueVotes at ht0m ⊢
    rw [List.countP_append, ht0m]
    simp
  have hfv2 : falseVotes pid ((castVote s pid uid 1 false).2.votes.map (updVote pid uid 0))
      = 1 := by
    rw [hvotes2]
    unfold falseVotes at hf0m ⊢
    rw [List.countP_append, hf0m]
    simp
  refine ⟨?_, ?_, ?_⟩
  · rw [e1]
    dsimp only
    rw [htv1, hfv1]
  · rw [e2]
    dsimp only
    rw [htv2, hfv2]
  · rw [e2]
    dsimp only
    rw [countP_key_map, hv1, List.countP_append, hk0]
    simp [voteKey]

/-- Witness for C1 at a concrete state: a fresh post id on the freshly
loaded server. -/
theorem castVote_revote_overwrites_witness :
    (initialState "load" true).votes.all (fun v => v.post_id != "p1") = true ∧
    (castVote (initialState "load" true) "p1" "u1" 1 false).1
      = VoteResult.ok "p1" 1 0 ∧
    (castVote (castVote (initialState "load" true) "p1" "u1" 1 false).2
        "p1" "u1" 0 false).1 = VoteResult.ok "p1" 0 1 := by
  have h := castVote_revote_overwrites (initialState "load" true) "p1" "u1" rfl
  exact ⟨rfl, h.1, h.2.1⟩

/-- C2: a create-post request whose body is missing `place_name`
(JS-falsy) gets the 400 response and leaves the whole server state —
store tables, fallback list and event log included — unchanged. -/
theorem createPost_missing_place_name_rejected (s : ServerState) (r : CreatePostReq)
    (f : Bool) (h : falsyStr r.place_name = true) :
    createPost s r f = (CreateResult.badRequest "Place name is required", s) := by
  unfold createPost
  rw [if_pos h]

/-- Witness for C2: an absent `place_name` on the freshly loaded server. -/
theorem createPost_missing_place_name_rejected_witness :
    falsyStr (none : Option String) = true ∧
    createPost (initialState "load" true)
        { id := "p9", user_id := "u9", place_name := none, description := "d",
          lat := 1, lng := 2, distribution_time := "tm" } false
      = (CreateResult.badRequest "Place name is required", initialState "load" true) :=
  ⟨rfl, createPost_missing_place_name_rejected _ _ _ rfl⟩

/-- Counterexample to C3: when the report insert throws, `createReport`
answers the 500 error `{error: 'Failed to report'}`, not a generic
success acknowledgment. -/
theorem createReport_store_failure_is_error :
    (createReport (initialState "load" true) "p1" "u1" "spam" true).1
      = ReportResult.serverError "Failed to report" ∧
    ReportResult.serverError "Failed to report" ≠ ReportResult.ok :=
  ⟨rfl, by decide⟩

/-- C3 as amended: on a store-write failure `castVote` degrades to the
zero-valued success payload `{post_id, true_votes: 0, false_votes: 0}`
with nothing persisted, while `createReport` responds with the 500
error `{error: 'Failed to report'}`; neither failure changes the state. -/
theorem store_failure_degraded_responses (s : ServerState) (pid uid reason : String)
    (vt : Int) :
    castVote s pid uid vt true = (VoteResult.ok pid 0 0, s) ∧
    createReport s pid uid reason true
      = (ReportResult.serverError "Failed to report", s) :=
  ⟨rfl, rfl⟩

/-- The tally pair carried by a 201 create-post response. -/
def resultTallies : CreateResult → Option (Nat × Nat)
  | .created v => some (v.true_votes, v.false_votes)
  | .badRequest _ => none

/-- C5: every valid post creation (present `place_name`) returns a 201
record whose tallies are exactly `(0, 0)`, on the store path and on the
memory-fallback path alike. -/
theorem createPost_zero_tallies (s : ServerState) (r : CreatePostReq) (f : Bool)
    (h : falsyStr r.place_name = false) :
    resultTallies (createPost s r f).1 = some (0, 0) := by
  unfold createPost
  rw [if_neg (by simp [h])]
  dsimp only
  split <;> rfl

/-- Witness for C5: the spec scenario `place_name: "Test Mosque"`. -/
theorem createPost_zero_tallies_witness :
    falsyStr (some "Test Mosque") = false ∧
    resultTallies (createPost (initialState "load" true)
        { id := "p1", user_id := "u1", place_name := some "Test Mosque",
          description := "biriyani", lat := 23.7, lng := 90.4,
          distribution_time := "tm" } false).1 = some (0, 0) :=
  ⟨rfl, createPost_zero_tallies _ _ _ rfl⟩

/-- C8: every 201 post creation appends exactly one `post:created`
event, whose payload is exactly the record returned to the client, on
the store path and on the memory path alike (given the broadcast
channel exists, i.e. non-production). -/
theorem createPost_broadcast_once (s : ServerState) (r : CreatePostReq) (f : Bool)
    (v : PostView) (hio : s.hasIO = true)
    (h : (createPost s r f).1 = CreateResult.created v) :
    (createPost s r f).2.events = s.events ++ [Event.postCreated v] := by
  unfold createPost at h ⊢
  by_cases hf : falsyStr r.place_name = true
  · rw [if_pos hf] at h
    exact absurd h (by simp)
  · rw [if_neg hf] at h ⊢
    dsimp only at h ⊢
    by_cases hc : (f || s.posts.any fun p => p.id == r.id) = true
    · rw [if_pos hc] at h ⊢
      dsimp only at h ⊢
      cases h
      simp [hio]
    · rw [if_neg hc] at h ⊢
      dsimp only at h ⊢
      cases h
      simp [hio]

/-- Witness for C8: a store-path creation on the freshly loaded server
appends exactly the `post:created` event carrying the 201 record. -/
theorem createPost_broadcast_once_witness :
    (createPost (initialState "load" true)
        { id := "p1", user_id := "u1", place_name := some "Dhaka",
          description := "d", lat := 1, lng := 2,
          distribution_time := "tm" } false).2.events
      = (initialState "load" true).events ++
        [Event.postCreated
          { id := "p1", user_id := "u1", user_name := some "Anonymous User",
            place_name := "Dhaka", description := "d", lat := 1, lng := 2,
            distribution_time := "tm", true_votes := 0, false_votes := 0,
            created_at := 1 }] :=
  createPost_broadcast_once _ _ _ _ rfl rfl

/-- C4: a successful list-posts read returns the store-backed posts
(a permutation of the `posts` table, newest-first by `created_at`)
followed by the fallback-list posts, which are newest-first as well. -/
theorem listPosts_grouped_sorted (t : String) (io : Bool) (s : ServerState)
    (h : Reachable t io s) :
    listPosts s false
      = (s.posts.insertionSort byCreatedDesc).map (postViewOf s.users s.votes)
          ++ s.memoryPosts.map memPostView ∧
    (s.posts.insertionSort byCreatedDesc).Perm s.posts ∧
    ((s.posts.insertionSort byCreatedDesc).map PostRow.created_at).Pairwise
      (fun a b => b ≤ a) ∧
    (s.memoryPosts.map MemPost.created_at).Pairwise (fun a b => b ≤ a) := by
  refine ⟨rfl, List.perm_insertionSort _ _, ?_, ?_⟩
  · rw [List.pairwise_map]
    exact List.sorted_insertionSort byCreatedDesc s.posts
  · rw [List.pairwise_map]
    exact (WF_reachable h).memSorted

/-- Witness for C4 at the initial state. -/
theorem listPosts_grouped_sorted_witness :
    listPosts (initialState "load" true) false
      = ((initialState "load" true).posts.insertionSort byCreatedDesc).map
          (postViewOf (initialState "load" true).users (initialState "load" true).votes)
        ++ (initialState "load" true).memoryPosts.map memPostView ∧
    ((initialState "load" true).posts.insertionSort byCreatedDesc).Perm
      (initialState "load" true).posts ∧
    (((initialState "load" true).posts.insertionSort byCreatedDesc).map
      PostRow.created_at).Pairwise (fun a b => b ≤ a) ∧
    ((initialState "load" true).memoryPosts.map MemPost.created_at).Pairwise
      (fun a b => b ≤ a) :=
  listPosts_grouped_sorted "load" true _ Relation.ReflTransGen.refl

/-- Counterexample to C6: the very first entry a fresh server lists is
the fallback sample post, whose exposed `true_votes` is the stored
constant 15 while the `votes` table holds no row at all for it — an
exposed tally that is not derived by counting vote rows. -/
theorem sample_tally_exposed_not_derived :
    (listPosts (initialState "load" true) false).head?
      = some (memPostView (sample1 "load")) ∧
    (memPostView (sample1 "load")).true_votes = 15 ∧
    trueVotes (memPostView (sample1 "load")).id (initialState "load" true).votes = 0 :=
  ⟨rfl, rfl, rfl⟩

/-- C6 as amended: tallies of store-backed posts are derived by
counting vote rows at read time — the cast-vote response and the
`post:voted` payload recount the post-state `votes` table, the
list-posts view of a store row counts vote rows, and no write stores a
tally: `castVote` leaves `posts` and `memoryPosts` untouched.  (The
fallback-list entries and the hardcoded zero pair of the 201 create
response carry stored tallies instead.) -/
theorem store_tallies_derived_at_read (s : ServerState) (pid uid : String) (vt : Int)
    (hio : s.hasIO = true) :
    (castVote s pid uid vt false).1
      = VoteResult.ok pid (trueVotes pid (castVote s pid uid vt false).2.votes)
          (falseVotes pid (castVote s pid uid vt false).2.votes) ∧
    (castVote s pid uid vt false).2.events
      = s.events ++ [Event.postVoted pid
          (trueVotes pid (castVote s pid uid vt false).2.votes)
          (falseVotes pid (castVote s pid uid vt false).2.votes)] ∧
    (castVote s pid uid vt false).2.posts = s.posts ∧
    (castVote s pid uid vt false).2.memoryPosts = s.memoryPosts ∧
    s.posts.all (fun p =>
      (postViewOf s.users s.votes p).true_votes == trueVotes p.id s.votes &&
      (postViewOf s.users s.votes p).false_votes == falseVotes p.id s.votes) = true := by
  refine ⟨rfl, ?_, rfl, rfl, ?_⟩
  · rw [show (castVote s pid uid vt false).2.events
        = s.events ++ (if s.hasIO then
            [Event.postVoted pid (trueVotes pid (castVote s pid uid vt false).2.votes)
              (falseVotes pid (castVote s pid uid vt false).2.votes)]
          else []) from rfl, hio]
    simp
  · rw [List.all_eq_true]
    intro p hp
    simp [postViewOf]

/-- Witness for C6 as amended, on the freshly loaded server. -/
theorem store_tallies_derived_at_read_witness :
    (castVote (initialState "load" true) "p1" "u1" 1 false).1
      = VoteResult.ok "p1"
          (trueVotes "p1" (castVote (initialState "load" true) "p1" "u1" 1 false).2.votes)
          (falseVotes "p1" (castVote (initialState "load" true) "p1" "u1" 1 false).2.votes) ∧
    (castVote (initialState "load" true) "p1" "u1" 1 false).2.events
      = (initialState "load" true).events ++ [Event.postVoted "p1"
          (trueVotes "p1" (castVote (initialState "load" true) "p1" "u1" 1 false).2.votes)
          (falseVotes "p1" (castVote (initialState "load" true) "p1" "u1" 1 false).2.votes)] ∧
    (castVote (initialState "load" true) "p1" "u1" 1 false).2.posts
      = (initialState "load" true).posts ∧
    (castVote (initialState "load" true) "p1" "u1" 1 false).2.memoryPosts
      = (initialState "load" true).memoryPosts ∧
    (initialState "load" true).posts.all (fun p =>
      (postViewOf (initialState "load" true).users (initialState "load" true).votes p).true_votes
        == trueVotes p.id (initialState "load" true).votes &&
      (postViewOf (initialState "load" true).users (initialState "load" true).votes p).false_votes
        == falseVotes p.id (initialState "load" true).votes) = true :=
  store_tallies_derived_at_read (initialState "load" true) "p1" "u1" 1 rfl

/-- C7: in every reachable state, every row of the `posts` table
references an existing row of the `users` table — `createPost` runs the
idempotent `INSERT OR IGNORE` of the user before inserting the post. -/
theorem posts_reference_existing_user (t : String) (io : Bool) (s : ServerState)
    (h : Reachable t io s) : refIntegrity s = true :=
  (WF_reachable h).refs

/-- Witness for C7: after one store-path creation the integrity still
holds (the post's user row was created by the same request). -/
theorem posts_reference_existing_user_witness :
    refIntegrity (createPost (initialState "load" true)
        { id := "p1", user_id := "u1", place_name := some "Dhaka",
          description := "d", lat := 1, lng := 2,
          distribution_time := "tm" } false).2 = true :=
  posts_reference_existing_user "load" true _
    (Relation.ReflTransGen.single (Step.create _ _ _))

/-- Does a serialized listing end with the two pre-seeded sample posts? -/
def hasSampleSuffix (t : String) (l : List PostView) : Bool :=
  decide (l.drop (l.length - 2) = [memPostView (sample1 t), memPostView (sample2 t)])

theorem drop_last_two {α : Type} (L : List α) (a b : α) :
    (L ++ [a, b]).drop ((L ++ [a, b]).length - 2) = [a, b] := by
  have hlen : (L ++ [a, b]).length - 2 = L.length := by
    simp [List.length_append]
  rw [hlen, List.drop_left]

/-- C9: in every reachable state, every list-posts response — the
store-backed group first, and even the degraded store-error response —
ends with the two pre-seeded sample posts `sample-1` and `sample-2`,
because `memoryPosts` is always appended and only ever grows at the
front. -/
theorem sample_posts_in_every_listing (t : String) (io : Bool) (s : ServerState)
    (h : Reachable t io s) (f : Bool) :
    hasSampleSuffix t (listPosts s f) = true ∧
    (memPostView (sample1 t)).id = "sample-1" ∧
    (memPostView (sample2 t)).id = "sample-2" := by
  obtain ⟨l0, hsuf⟩ := (WF_reachable h).memSuffix
  refine ⟨?_, rfl, rfl⟩
  unfold hasSampleSuffix
  rw [decide_eq_true_iff]
  have key : ∀ X : List PostView,
      (X ++ s.memoryPosts.map memPostView).drop
        ((X ++ s.memoryPosts.map memPostView).length - 2)
        = [memPostView (sample1 t), memPostView (sample2 t)] := by
    intro X
    rw [hsuf, List.map_append, ← List.append_assoc]
    exact drop_last_two _ _ _
  cases f
  · exact key ((s.posts.insertionSort byCreatedDesc).map (postViewOf s.users s.votes))
  · exact key []

/-- Witness for C9: the fresh server's listing already ends with the
two samples. -/
theorem sample_posts_in_every_listing_witness :
    hasSampleSuffix "load" (listPosts (initialState "load" true) false) = true ∧
    (memPostView (sample1 "load")).id = "sample-1" ∧
    (memPostView (sample2 "load")).id = "sample-2" :=
  sample_posts_in_every_listing "load" true _ Relation.ReflTransGen.refl false

/-- C10: `castVote` stores any client-supplied `vote_type` as given in
the unique `(post, user)` vote row, and a value other than 0 or 1 is
counted in neither tally, so the returned pair sums to strictly fewer
than the post's vote rows. -/
theorem castVote_no_validation (t : String) (io : Bool) (s : ServerState)
    (h : Reachable t io s) (pid uid : String) (vt : Int) :
    (castVote s pid uid vt false).2.votes.countP (voteKey pid uid) = 1 ∧
    ((castVote s pid uid vt false).2.votes.find? (voteKey pid uid)).map
      VoteRow.vote_type = some vt ∧
    (vt ≠ 0 → vt ≠ 1 →
      trueVotes pid (castVote s pid uid vt false).2.votes
        + falseVotes pid (castVote s pid uid vt false).2.votes
        < postVotes pid (castVote s pid uid vt false).2.votes) := by
  have hvd := (WF_reachable h).votesDistinct
  by_cases hex : s.votes.any (voteKey pid uid) = true
  · have hv : (castVote s pid uid vt false).2.votes
        = s.votes.map (updVote pid uid vt) := by
      rw [castVote_update s pid uid vt hex]
    rw [hv]
    refine ⟨?_, find?_map_upd hex, ?_⟩
    · rw [countP_key_map]
      exact countP_key_eq_one hvd hex
    · intro h0 h1
      obtain ⟨v0, hv0, hkey⟩ := List.any_eq_true.mp hex
      have hkey2 := hkey
      simp only [voteKey, Bool.and_eq_true, beq_iff_eq] at hkey2
      have hmem : updVote pid uid vt v0 ∈ s.votes.map (updVote pid uid vt) :=
        List.mem_map_of_mem _ hv0
      have hupd : updVote pid uid vt v0 = { v0 with vote_type := vt } := by
        unfold updVote
        rw [if_pos hkey]
      refine tallies_lt_of_mem hmem ?_ ?_ ?_
      · rw [hupd]
        exact hkey2.1
      · rw [hupd]
        exact h0
      · rw [hupd]
        exact h1
  · rw [Bool.not_eq_true] at hex
    have hv : (castVote s pid uid vt false).2.votes
        = s.votes ++ [⟨s.nextVoteId, pid, uid, vt⟩] := by
      rw [castVote_insert s pid uid vt hex]
    have hall : s.votes.countP (voteKey pid uid) = 0 := by
      rw [List.countP_eq_zero]
      intro a ha hka
      rw [List.any_eq_false] at hex
      exact hex a ha hka
    rw [hv]
    refine ⟨?_, ?_, ?_⟩
    · rw [List.countP_append, hall]
      simp [voteKey]
    · rw [find?_append_right _ hex,
          List.find?_cons_of_pos _ (by simp [voteKey])]
      rfl
    · intro h0 h1
      exact tallies_lt_of_mem
        (List.mem_append_right _ (List.mem_singleton_self _)) rfl h0 h1

/-- Witness for C10: an out-of-range `vote_type = 2` on the fresh
server is stored yet counted in neither tally. -/
theorem castVote_no_validation_witness :
    (castVote (initialState "load" true) "p1" "u1" 2 false).2.votes.countP
      (voteKey "p1" "u1") = 1 ∧
    ((castVote (initialState "load" true) "p1" "u1" 2 false).2.votes.find?
      (voteKey "p1" "u1")).map VoteRow.vote_type = some 2 ∧
    trueVotes "p1" (castVote (initialState "load" true) "p1" "u1" 2 false).2.votes
      + falseVotes "p1" (castVote (initialState "load" true) "p1" "u1" 2 false).2.votes
      < postVotes "p1" (castVote (initialState "load" true) "p1" "u1" 2 false).2.votes := by
  have h := castVote_no_validation "load" true _ Relation.ReflTransGen.refl "p1" "u1" 2
  exact ⟨h.1, h.2.1, h.2.2 (by decide) (by decide)⟩
